import Mathlib

/-!
Verification of the MSP DisplayPort forwarder/renderer.

This file shallowly embeds the repository's Python sources in Lean 4:

* `src/msp_proto.py` — the MSPv1 frame codec (`parse_msp_v1`, `MSPv1Frame`);
* `src/msp_dp_forward.py` — the MSPv1 encoder (`msp_v1`);
* `src/msp_dp_render_png.py` — the canvas model (`MSPDPCanvas`), the text
  fallback of the renderer (`_value_to_text`), and the UDP dispatch loop
  with its render-throttle gate (`run`);
* `src/displayport.py` — the TUI canvas model (`Canvas`, `_safe_ascii`).

Bytes are modelled as natural numbers (< 256 where Python's `bytes` type
enforces it), byte strings as `List Nat`, and wall-clock time as `ℚ`.
-/

/-! ## Frame codec (`src/msp_proto.py`, encoder from `src/msp_dp_forward.py`) -/

/-- `MSPv1Frame` from `src/msp_proto.py`: direction marker, command byte,
payload bytes and the checksum-validity flag. -/
structure MSPv1Frame where
  direction : List Nat
  cmd : Nat
  payload : List Nat
  csum_ok : Bool
deriving DecidableEq

/-- The three recognized 3-byte direction markers: `$M>`, `$M<`, `$M!`. -/
def mspDirections : List (List Nat) :=
  [[0x24, 0x4D, 0x3E], [0x24, 0x4D, 0x3C], [0x24, 0x4D, 0x21]]

/-- The XOR fold used for the MSPv1 checksum:
`chk = (ln ^ cmd) & 0xFF` then `for b in payload: chk ^= b`. -/
def mspChecksum (ln cmd : Nat) (payload : List Nat) : Nat :=
  payload.foldl (fun a b => a ^^^ b) ((ln ^^^ cmd) &&& 0xFF)

/-- `parse_msp_v1` from `src/msp_proto.py`: decode one MSPv1 frame
(`$M> len cmd payload csum`) from the start of a byte buffer. -/
def parse_msp_v1 (buf : List Nat) : Option MSPv1Frame :=
  if buf.length < 6 then none
  else
    let direction := buf.take 3
    if direction ∈ mspDirections then
      let ln := buf.getD 3 0
      let cmd := buf.getD 4 0
      let need := 3 + 1 + 1 + ln + 1
      if buf.length < need then none
      else
        let payload := (buf.drop 5).take ln
        let csum := buf.getD (5 + ln) 0
        let ok := (mspChecksum ln cmd payload &&& 0xFF) == csum
        some ⟨direction, cmd, payload, ok⟩
    else none

/-- `msp_v1` from `src/msp_dp_forward.py`: encode an MSPv1 request frame
`$M< [len] [cmd] [payload...] [csum]`. -/
def msp_v1 (cmd : Nat) (payload : List Nat) : List Nat :=
  let hdr := [0x24, 0x4D, 0x3C]
  let ln := payload.length
  hdr ++ [ln, cmd] ++ payload ++ [mspChecksum ln cmd payload]

lemma foldl_xor_lt_256 : ∀ (l : List Nat), (∀ x ∈ l, x < 256) →
    ∀ a, a < 256 → l.foldl (fun a b => a ^^^ b) a < 256 := by
  intro l
  induction l with
  | nil => intro _ a ha; simpa using ha
  | cons y ys ih =>
    intro hl a ha
    simp only [List.foldl_cons]
    refine ih (fun x hx => hl x (List.mem_cons_of_mem _ hx)) _ ?_
    have h256 : (256 : Nat) = 2 ^ 8 := by norm_num
    rw [h256] at ha ⊢
    exact Nat.xor_lt_two_pow ha (h256 ▸ hl y (List.mem_cons_self _ _))

lemma mspChecksum_lt_256 (ln cmd : Nat) (payload : List Nat)
    (hb : ∀ b ∈ payload, b < 256) : mspChecksum ln cmd payload < 256 := by
  have hinit : (ln ^^^ cmd) &&& 0xFF < 256 := by
    rw [show (0xFF : Nat) = 2 ^ 8 - 1 by norm_num,
      Nat.and_pow_two_sub_one_eq_mod]
    exact Nat.mod_lt _ (by norm_num)
  exact foldl_xor_lt_256 payload hb _ hinit

/-- C1: round-trip. Decoding the encoder's output recovers the command and
payload exactly, with a valid checksum. -/
theorem parse_msp_v1_msp_v1 (cmd : Nat) (payload : List Nat)
    (hcmd : cmd < 256) (hlen : payload.length ≤ 255)
    (hbytes : ∀ b ∈ payload, b < 256) :
    parse_msp_v1 (msp_v1 cmd payload) =
      some ⟨[0x24, 0x4D, 0x3C], cmd, payload, true⟩ := by
  have hbuf : msp_v1 cmd payload =
      0x24 :: 0x4D :: 0x3C :: payload.length :: cmd ::
        (payload ++ [mspChecksum payload.length cmd payload]) := by
    simp [msp_v1]
  unfold parse_msp_v1
  rw [hbuf]
  have htake : (0x24 :: 0x4D :: 0x3C :: payload.length :: cmd ::
      (payload ++ [mspChecksum payload.length cmd payload])).take 3 =
      [0x24, 0x4D, 0x3C] := by
    simp [List.take_succ_cons]
  have hlen6 : ¬ (0x24 :: 0x4D :: 0x3C :: payload.length :: cmd ::
      (payload ++ [mspChecksum payload.length cmd payload])).length < 6 := by
    simp
  rw [if_neg hlen6]
  simp only [htake]
  rw [if_pos (by decide)]
  have hln : (0x24 :: 0x4D :: 0x3C :: payload.length :: cmd ::
      (payload ++ [mspChecksum payload.length cmd payload])).getD 3 0 =
      payload.length := by
    simp [List.getD]
  have hcmd4 : (0x24 :: 0x4D :: 0x3C :: payload.length :: cmd ::
      (payload ++ [mspChecksum payload.length cmd payload])).getD 4 0 = cmd := by
    simp [List.getD]
  simp only [hln, hcmd4]
  have hneed : ¬ (0x24 :: 0x4D :: 0x3C :: payload.length :: cmd ::
      (payload ++ [mspChecksum payload.length cmd payload])).length <
      3 + 1 + 1 + payload.length + 1 := by
    simp; omega
  rw [if_neg hneed]
  have hdrop : (0x24 :: 0x4D :: 0x3C :: payload.length :: cmd ::
      (payload ++ [mspChecksum payload.length cmd payload])).drop 5 =
      payload ++ [mspChecksum payload.length cmd payload] := by
    simp [List.drop_succ_cons]
  have hpayload : ((0x24 :: 0x4D :: 0x3C :: payload.length :: cmd ::
      (payload ++ [mspChecksum payload.length cmd payload])).drop 5).take
      payload.length = payload := by
    rw [hdrop]; exact List.take_left _ _
  have hcsum : (0x24 :: 0x4D :: 0x3C :: payload.length :: cmd ::
      (payload ++ [mspChecksum payload.length cmd payload])).getD
      (5 + payload.length) 0 = mspChecksum payload.length cmd payload := by
    rw [show 5 + payload.length = payload.length + 1 + 1 + 1 + 1 + 1 by omega]
    simp only [List.getD_cons_succ]
    rw [List.getD_eq_getElem?_getD, List.getElem?_append_right (le_refl _)]
    simp
  simp only [hpayload, hcsum]
  have hchk : mspChecksum payload.length cmd payload &&& 0xFF =
      mspChecksum payload.length cmd payload := by
    rw [show (0xFF : Nat) = 2 ^ 8 - 1 by norm_num]
    refine Nat.and_pow_two_sub_one_of_lt_two_pow ?_
    rw [show (2 : Nat) ^ 8 = 256 by norm_num]
    exact mspChecksum_lt_256 _ _ _ hbytes
  rw [hchk]
  simp

/-- C1 witness: round-trip at a concrete command and payload. -/
theorem parse_msp_v1_msp_v1_witness :
    parse_msp_v1 (msp_v1 0xB6 [3, 5, 2, 0, 65, 0]) =
      some ⟨[0x24, 0x4D, 0x3C], 0xB6, [3, 5, 2, 0, 65, 0], true⟩ :=
  parse_msp_v1_msp_v1 0xB6 [3, 5, 2, 0, 65, 0] (by decide) (by decide)
    (by decide)

/-- C2: a buffer that starts with a recognized marker and holds at least
`3 + 1 + 1 + L + 1` bytes always parses to a full frame; the checksum only
determines the `csum_ok` flag, never whether a frame is returned. -/
theorem parse_msp_v1_total_on_marked (buf : List Nat)
    (hdir : buf.take 3 ∈ mspDirections)
    (hlen : 3 + 1 + 1 + buf.getD 3 0 + 1 ≤ buf.length) :
    ∃ fr, parse_msp_v1 buf = some fr ∧
      fr.direction = buf.take 3 ∧
      fr.cmd = buf.getD 4 0 ∧
      fr.payload = (buf.drop 5).take (buf.getD 3 0) ∧
      fr.payload.length = buf.getD 3 0 ∧
      fr.csum_ok = (mspChecksum (buf.getD 3 0) (buf.getD 4 0)
        ((buf.drop 5).take (buf.getD 3 0)) &&& 0xFF == buf.getD
          (5 + buf.getD 3 0) 0) := by
  have h6 : ¬ buf.length < 6 := by omega
  refine ⟨⟨buf.take 3, buf.getD 4 0, (buf.drop 5).take (buf.getD 3 0),
    mspChecksum (buf.getD 3 0) (buf.getD 4 0)
      ((buf.drop 5).take (buf.getD 3 0)) &&& 0xFF ==
      buf.getD (5 + buf.getD 3 0) 0⟩, ?_, rfl, rfl, rfl, ?_, rfl⟩
  · unfold parse_msp_v1
    rw [if_neg h6, if_pos hdir, if_neg (by omega)]
  · rw [List.length_take, List.length_drop]
    omega

/-- C2 witness: a frame with a deliberately wrong trailing checksum byte is
still fully parsed. -/
theorem parse_msp_v1_total_on_marked_witness :
    ∃ fr, parse_msp_v1 [0x24, 0x4D, 0x3E, 1, 0xB6, 4, 0] = some fr ∧
      fr.direction = [0x24, 0x4D, 0x3E, 1, 0xB6, 4, 0].take 3 ∧
      fr.cmd = [0x24, 0x4D, 0x3E, 1, 0xB6, 4, 0].getD 4 0 ∧
      fr.payload = ([0x24, 0x4D, 0x3E, 1, 0xB6, 4, 0].drop 5).take
        ([0x24, 0x4D, 0x3E, 1, 0xB6, 4, 0].getD 3 0) ∧
      fr.payload.length = [0x24, 0x4D, 0x3E, 1, 0xB6, 4, 0].getD 3 0 ∧
      fr.csum_ok = (mspChecksum ([0x24, 0x4D, 0x3E, 1, 0xB6, 4, 0].getD 3 0)
        ([0x24, 0x4D, 0x3E, 1, 0xB6, 4, 0].getD 4 0)
        (([0x24, 0x4D, 0x3E, 1, 0xB6, 4, 0].drop 5).take
          ([0x24, 0x4D, 0x3E, 1, 0xB6, 4, 0].getD 3 0)) &&& 0xFF ==
        [0x24, 0x4D, 0x3E, 1, 0xB6, 4, 0].getD
          (5 + [0x24, 0x4D, 0x3E, 1, 0xB6, 4, 0].getD 3 0) 0) :=
  parse_msp_v1_total_on_marked [0x24, 0x4D, 0x3E, 1, 0xB6, 4, 0]
    (by decide) (by decide)

/-! ## Canvas model (`MSPDPCanvas` in `src/msp_dp_render_png.py` and
`Canvas` in `src/displayport.py`) -/

/-- A cell of `MSPDPCanvas.grid`. In the Python source the grid holds
`Any`: the string `" "` placed by `clear()` (modelled as `blank`) or a raw
byte value placed by `write_string` (modelled as `int v`). -/
inductive Cell where
  | blank
  | int (v : Nat)
deriving DecidableEq

/-- The write loop shared by both canvas classes:
`x = col; for value in payload: if x >= cols: break; row[x] = store(value); x += 1`.
`store` is the identity embedding for `MSPDPCanvas` (`Cell.int`) and
`_safe_ascii` for the TUI `Canvas`. -/
def writeRowLoop {α : Type} (store : Nat → α) :
    List α → Nat → Nat → List Nat → List α
  | rowList, _, _, [] => rowList
  | rowList, x, cols, v :: rest =>
    if cols ≤ x then rowList
    else writeRowLoop store (rowList.set x (store v)) (x + 1) cols rest

/-- The effective string payload of a `write_string` call: drop the leading
attribute byte, then truncate at the first zero byte if one occurs
(`payload.split(b"\x00", 1)[0]`). -/
def stringPayload (data : List Nat) : List Nat :=
  let payload := data.drop 1
  if payload.contains 0 then payload.takeWhile (fun b => b != 0) else payload

/-- `MSPDPCanvas` from `src/msp_dp_render_png.py`. -/
structure MSPDPCanvas where
  cols : Nat
  rows : Nat
  frame : Nat
  dirty : Bool
  grid : List (List Cell)
deriving DecidableEq

/-- `MSPDPCanvas.clear`: reset every cell to `" "` and mark dirty. -/
def MSPDPCanvas.clear (c : MSPDPCanvas) : MSPDPCanvas :=
  { c with grid := List.replicate c.rows (List.replicate c.cols Cell.blank),
           dirty := true }

/-- `MSPDPCanvas.__post_init__`: field defaults (`frame = 0`,
`dirty = True`, empty grid) followed by `clear()`. -/
def MSPDPCanvas.init (cols rows : Nat) : MSPDPCanvas :=
  MSPDPCanvas.clear ⟨cols, rows, 0, true, []⟩

/-- `MSPDPCanvas.write_string`: no-op when `row`/`col` is out of bounds or
`data` is empty; otherwise drop the attribute byte, truncate the string at
the first zero byte, and write successive bytes into successive cells of
the row, stopping at the right edge. -/
def MSPDPCanvas.write_string (c : MSPDPCanvas) (row col : Int)
    (data : List Nat) : MSPDPCanvas :=
  if row < 0 ∨ (c.rows : Int) ≤ row ∨ col < 0 ∨ (c.cols : Int) ≤ col then c
  else if data = [] then c
  else
    let payload := stringPayload data
    let newRow := writeRowLoop Cell.int (c.grid.getD row.toNat [])
      col.toNat c.cols payload
    { c with grid := c.grid.set row.toNat newRow, dirty := true }

/-- `MSPDPCanvas.draw`: increment the frame counter and mark dirty. -/
def MSPDPCanvas.draw (c : MSPDPCanvas) : MSPDPCanvas :=
  { c with frame := c.frame + 1, dirty := true }

/-- `_safe_ascii` from `src/displayport.py`: printable bytes (32–126) map to
the corresponding character, everything else to a debug dot. -/
def _safe_ascii (b : Nat) : String :=
  if 32 ≤ b ∧ b ≤ 126 then String.mk [Char.ofNat b] else "·"

namespace Displayport

/-- `Canvas` from `src/displayport.py` (the TUI canvas; cells are strings). -/
structure Canvas where
  cols : Nat
  rows : Nat
  frame : Nat
  dirty : Bool
  grid : List (List String)
deriving DecidableEq

/-- `Canvas.clear`. -/
def Canvas.clear (c : Canvas) : Canvas :=
  { c with grid := List.replicate c.rows (List.replicate c.cols " "),
           dirty := true }

/-- `Canvas.write_string`: identical control flow to
`MSPDPCanvas.write_string`, but cells receive `_safe_ascii(value)`. -/
def Canvas.write_string (c : Canvas) (row col : Int)
    (data : List Nat) : Canvas :=
  if row < 0 ∨ (c.rows : Int) ≤ row ∨ col < 0 ∨ (c.cols : Int) ≤ col then c
  else if data = [] then c
  else
    let payload := stringPayload data
    let newRow := writeRowLoop _safe_ascii (c.grid.getD row.toNat [])
      col.toNat c.cols payload
    { c with grid := c.grid.set row.toNat newRow, dirty := true }

/-- `Canvas.draw`. -/
def Canvas.draw (c : Canvas) : Canvas :=
  { c with frame := c.frame + 1, dirty := true }

end Displayport

lemma writeRowLoop_length {α : Type} (store : Nat → α) :
    ∀ (payload : List Nat) (rowList : List α) (x cols : Nat),
      (writeRowLoop store rowList x cols payload).length = rowList.length := by
  intro payload
  induction payload with
  | nil => intro rowList x cols; rfl
  | cons v rest ih =>
    intro rowList x cols
    unfold writeRowLoop
    split
    · rfl
    · rw [ih]; simp

/-- Index-level characterization of the write loop: position `j` receives
`payload[j - x]` exactly when `x ≤ j < x + payload.length`, `j` is left of
the right edge, and `j` is inside the row; every other position keeps its
previous content. -/
lemma writeRowLoop_getElem? {α : Type} (store : Nat → α) :
    ∀ (payload : List Nat) (rowList : List α) (x cols j : Nat),
      (writeRowLoop store rowList x cols payload)[j]? =
        if x ≤ j ∧ j < x + payload.length ∧ j < cols ∧ j < rowList.length
        then some (store (payload.getD (j - x) 0))
        else rowList[j]? := by
  intro payload
  induction payload with
  | nil =>
    intro rowList x cols j
    rw [if_neg (by simp only [List.length_nil]; omega)]
    rfl
  | cons v rest ih =>
    intro rowList x cols j
    unfold writeRowLoop
    split
    · rw [if_neg (by omega)]
    · rename_i hx
      rw [ih]
      rcases Nat.lt_trichotomy j x with hj | hj | hj
      · rw [if_neg (by omega), if_neg (by omega),
          List.getElem?_set_ne (by omega)]
      · subst hj
        rw [if_neg (by omega)]
        by_cases hlen : j < rowList.length
        · rw [if_pos (by simp [List.length_set]; omega)]
          simp [List.getElem?_set_self hlen]
        · rw [if_neg (by simp [List.length_set]; omega),
            List.set_eq_of_length_le (by omega)]
      · by_cases hcond : x + 1 ≤ j ∧ j < x + 1 + rest.length ∧ j < cols ∧
            j < (rowList.set x (store v)).length
        · have hset : j < rowList.length := by
            have := hcond.2.2.2
            simpa [List.length_set] using this
          have hcond2 : x ≤ j ∧ j < x + (v :: rest).length ∧ j < cols ∧
              j < rowList.length := by
            refine ⟨by omega, ?_, hcond.2.2.1, hset⟩
            simp only [List.length_cons]
            omega
          rw [if_pos hcond, if_pos hcond2]
          have hidx : j - x = (j - (x + 1)) + 1 := by omega
          rw [hidx]
          simp
        · have hcond2 : ¬ (x ≤ j ∧ j < x + (v :: rest).length ∧ j < cols ∧
              j < rowList.length) := by
            simp only [List.length_set] at hcond
            simp only [List.length_cons]
            omega
          rw [if_neg hcond, if_neg hcond2,
            List.getElem?_set_ne (by omega)]

lemma writeRowLoop_nil {α : Type} (store : Nat → α) :
    ∀ (payload : List Nat) (x cols : Nat),
      writeRowLoop store [] x cols payload = [] := by
  intro payload
  induction payload with
  | nil => intro x cols; rfl
  | cons v rest ih =>
    intro x cols
    unfold writeRowLoop
    split
    · rfl
    · exact ih (x + 1) cols

lemma zero_not_mem_takeWhile (l : List Nat) :
    (0 : Nat) ∉ l.takeWhile (fun b => b != 0) := by
  intro h
  have := List.mem_takeWhile_imp h
  simp at this

lemma stringPayload_of_contains (data : List Nat)
    (hzero : (data.drop 1).contains 0 = true) :
    stringPayload data = (data.drop 1).takeWhile (fun b => b != 0) := by
  unfold stringPayload
  rw [if_pos hzero]

lemma stringPayload_truncated (data : List Nat) (hne : data ≠ []) :
    stringPayload (data.take 1 ++ (data.drop 1).takeWhile (fun b => b != 0)) =
      (data.drop 1).takeWhile (fun b => b != 0) := by
  have h1 : (data.take 1).length = 1 := by
    cases data with
    | nil => exact absurd rfl hne
    | cons a l => simp
  unfold stringPayload
  rw [List.drop_left' h1, if_neg]
  simpa using zero_not_mem_takeWhile (data.drop 1)

lemma take_append_takeWhile_ne_nil (data : List Nat) (hne : data ≠ []) :
    data.take 1 ++ (data.drop 1).takeWhile (fun b => b != 0) ≠ [] := by
  cases data with
  | nil => exact absurd rfl hne
  | cons a l => simp

lemma write_string_grid (c : MSPDPCanvas) (row col : Int) (data : List Nat)
    (hin : ¬ (row < 0 ∨ (c.rows : Int) ≤ row ∨ col < 0 ∨ (c.cols : Int) ≤ col))
    (hne : data ≠ []) :
    (c.write_string row col data).grid =
      c.grid.set row.toNat (writeRowLoop Cell.int (c.grid.getD row.toNat [])
        col.toNat c.cols (stringPayload data)) := by
  unfold MSPDPCanvas.write_string
  rw [if_neg hin, if_neg hne]

lemma write_string_grid_row (c : MSPDPCanvas) (row col : Int) (data : List Nat)
    (hin : ¬ (row < 0 ∨ (c.rows : Int) ≤ row ∨ col < 0 ∨ (c.cols : Int) ≤ col))
    (hne : data ≠ []) :
    (c.write_string row col data).grid.getD row.toNat [] =
      writeRowLoop Cell.int (c.grid.getD row.toNat []) col.toNat c.cols
        (stringPayload data) := by
  rw [write_string_grid c row col data hin hne]
  by_cases hr : row.toNat < c.grid.length
  · rw [List.getD_eq_getElem?_getD, List.getElem?_set_self hr]
    rfl
  · have hgetD : c.grid.getD row.toNat [] = [] := by
      rw [List.getD_eq_getElem?_getD, List.getElem?_eq_none (by omega)]
      rfl
    rw [List.set_eq_of_length_le (by omega), hgetD, writeRowLoop_nil]

/-- C3: `write_string` with an out-of-bounds (including negative) `row` or
`col` leaves every cell of the grid unchanged, for both canvas classes. -/
theorem write_string_out_of_bounds :
    (∀ (c : MSPDPCanvas) (row col : Int) (data : List Nat),
      (row < 0 ∨ (c.rows : Int) ≤ row ∨ col < 0 ∨ (c.cols : Int) ≤ col) →
      (c.write_string row col data).grid = c.grid) ∧
    (∀ (c : Displayport.Canvas) (row col : Int) (data : List Nat),
      (row < 0 ∨ (c.rows : Int) ≤ row ∨ col < 0 ∨ (c.cols : Int) ≤ col) →
      (c.write_string row col data).grid = c.grid) := by
  constructor
  · intro c row col data h
    unfold MSPDPCanvas.write_string
    rw [if_pos h]
  · intro c row col data h
    unfold Displayport.Canvas.write_string
    rw [if_pos h]

/-- C3 witness: an out-of-row write on the PNG canvas and a negative-row
write on the TUI canvas both leave the grid untouched. -/
theorem write_string_out_of_bounds_witness :
    ((MSPDPCanvas.init 60 22).write_string 22 0 [0, 65]).grid =
      (MSPDPCanvas.init 60 22).grid ∧
    ((Displayport.Canvas.clear ⟨60, 22, 0, true, []⟩).write_string (-1) 0
      [0, 65]).grid = (Displayport.Canvas.clear ⟨60, 22, 0, true, []⟩).grid :=
  ⟨write_string_out_of_bounds.1 (MSPDPCanvas.init 60 22) 22 0 [0, 65]
    (by decide),
   write_string_out_of_bounds.2 (Displayport.Canvas.clear ⟨60, 22, 0, true, []⟩)
    (-1) 0 [0, 65] (by decide)⟩

/-- C4: for an in-bounds write whose string payload contains a zero byte,
only the bytes before the first zero are written: the write is equal to the
write of the truncated data (on both canvas classes), and the cells from
`col` on hold exactly the truncated bytes. -/
theorem write_string_zero_byte_truncates (row col : Int) (data : List Nat)
    (hne : data ≠ [])
    (hzero : (data.drop 1).contains 0 = true) :
    (∀ (c : MSPDPCanvas),
      ¬ (row < 0 ∨ (c.rows : Int) ≤ row ∨ col < 0 ∨ (c.cols : Int) ≤ col) →
      c.write_string row col data =
        c.write_string row col
          (data.take 1 ++ (data.drop 1).takeWhile (fun b => b != 0))) ∧
    (∀ (c : MSPDPCanvas),
      ¬ (row < 0 ∨ (c.rows : Int) ≤ row ∨ col < 0 ∨ (c.cols : Int) ≤ col) →
      ∀ i, i < ((data.drop 1).takeWhile (fun b => b != 0)).length →
        col.toNat + i < c.cols →
        ((c.write_string row col data).grid.getD row.toNat [])[col.toNat + i]? =
          if col.toNat + i < (c.grid.getD row.toNat []).length
          then some (Cell.int
            (((data.drop 1).takeWhile (fun b => b != 0)).getD i 0))
          else none) ∧
    (∀ (c : Displayport.Canvas),
      ¬ (row < 0 ∨ (c.rows : Int) ≤ row ∨ col < 0 ∨ (c.cols : Int) ≤ col) →
      c.write_string row col data =
        c.write_string row col
          (data.take 1 ++ (data.drop 1).takeWhile (fun b => b != 0))) := by
  have h1 : stringPayload data = (data.drop 1).takeWhile (fun b => b != 0) :=
    stringPayload_of_contains data hzero
  have h2 : stringPayload
      (data.take 1 ++ (data.drop 1).takeWhile (fun b => b != 0)) =
      (data.drop 1).takeWhile (fun b => b != 0) :=
    stringPayload_truncated data hne
  have hne2 := take_append_takeWhile_ne_nil data hne
  refine ⟨?_, ?_, ?_⟩
  · intro c hin
    unfold MSPDPCanvas.write_string
    rw [if_neg hin, if_neg hne, if_neg hin, if_neg hne2]
    simp only [h1, h2]
  · intro c hin i hi hcols
    rw [write_string_grid_row c row col data hin hne, h1,
      writeRowLoop_getElem?]
    by_cases hrl : col.toNat + i < (c.grid.getD row.toNat []).length
    · rw [if_pos ⟨by omega, by omega, hcols, hrl⟩, if_pos hrl,
        show col.toNat + i - col.toNat = i by omega]
    · rw [if_neg (by omega), if_neg hrl]
      exact List.getElem?_eq_none (by omega)
  · intro c hin
    unfold Displayport.Canvas.write_string
    rw [if_neg hin, if_neg hne, if_neg hin, if_neg hne2]
    simp only [h1, h2]

/-- C4 witness: writing `attr, 'A', 0, 'B'` at (5,2) equals writing the
truncated data, and the cell at column 2 holds exactly `'A'`. -/
theorem write_string_zero_byte_truncates_witness :
    ((MSPDPCanvas.init 60 22).write_string 5 2 [0, 65, 0, 66] =
      (MSPDPCanvas.init 60 22).write_string 5 2
        ([0, 65, 0, 66].take 1 ++
          ([0, 65, 0, 66].drop 1).takeWhile (fun b => b != 0))) ∧
    ((((MSPDPCanvas.init 60 22).write_string 5 2
        [0, 65, 0, 66]).grid.getD (5 : Int).toNat [])[(2 : Int).toNat + 0]? =
      if (2 : Int).toNat + 0 <
          ((MSPDPCanvas.init 60 22).grid.getD (5 : Int).toNat []).length
      then some (Cell.int
        ((([0, 65, 0, 66].drop 1).takeWhile (fun b => b != 0)).getD 0 0))
      else none) ∧
    ((Displayport.Canvas.clear ⟨60, 22, 0, true, []⟩).write_string 5 2
        [0, 65, 0, 66] =
      (Displayport.Canvas.clear ⟨60, 22, 0, true, []⟩).write_string 5 2
        ([0, 65, 0, 66].take 1 ++
          ([0, 65, 0, 66].drop 1).takeWhile (fun b => b != 0))) :=
  ⟨(write_string_zero_byte_truncates 5 2 [0, 65, 0, 66] (by decide)
      (by decide)).1 (MSPDPCanvas.init 60 22) (by decide),
   (write_string_zero_byte_truncates 5 2 [0, 65, 0, 66] (by decide)
      (by decide)).2.1 (MSPDPCanvas.init 60 22) (by decide) 0 (by decide)
      (by decide),
   (write_string_zero_byte_truncates 5 2 [0, 65, 0, 66] (by decide)
      (by decide)).2.2 (Displayport.Canvas.clear ⟨60, 22, 0, true, []⟩)
      (by decide)⟩

/-- C5: an in-bounds write whose effective string payload overflows the
right edge fills the row from `col` to `cols - 1` with the leading payload
bytes, leaves every other row untouched, and preserves the grid dimensions
(no wraparound, no out-of-bounds access). -/
theorem write_string_right_edge (c : MSPDPCanvas) (row col : Int)
    (data : List Nat)
    (hin : ¬ (row < 0 ∨ (c.rows : Int) ≤ row ∨ col < 0 ∨ (c.cols : Int) ≤ col))
    (hne : data ≠ [])
    (hwf : c.grid.length = c.rows ∧ ∀ r ∈ c.grid, r.length = c.cols)
    (hlong : c.cols - col.toNat < (stringPayload data).length) :
    (∀ j, col.toNat ≤ j → j < c.cols →
      ((c.write_string row col data).grid.getD row.toNat [])[j]? =
        some (Cell.int ((stringPayload data).getD (j - col.toNat) 0))) ∧
    (∀ r, r ≠ row.toNat →
      (c.write_string row col data).grid[r]? = c.grid[r]?) ∧
    (c.write_string row col data).grid.length = c.rows ∧
    ((c.write_string row col data).grid.getD row.toNat []).length = c.cols := by
  have hrowlt : row.toNat < c.grid.length := by
    rw [hwf.1]; omega
  have hrowlen : (c.grid.getD row.toNat []).length = c.cols := by
    rw [List.getD_eq_getElem?_getD, List.getElem?_eq_getElem hrowlt]
    exact hwf.2 _ (List.getElem_mem hrowlt)
  have hcollt : col.toNat < c.cols := by omega
  refine ⟨?_, ?_, ?_, ?_⟩
  · intro j hj hjc
    rw [write_string_grid_row c row col data hin hne, writeRowLoop_getElem?,
      if_pos ⟨hj, by omega, hjc, by omega⟩]
  · intro r hr
    rw [write_string_grid c row col data hin hne,
      List.getElem?_set_ne (fun h => hr h.symm)]
  · rw [write_string_grid c row col data hin hne, List.length_set]
    exact hwf.1
  · rw [write_string_grid_row c row col data hin hne, writeRowLoop_length]
    exact hrowlen

/-- C5 witness: on a 3-column canvas, writing a 3-byte string at column 1
fills columns 1 and 2 and drops the rest; row 0 is untouched and the
dimensions are preserved. -/
theorem write_string_right_edge_witness :
    (((MSPDPCanvas.init 3 2).write_string 1 1
        [0, 65, 66, 67]).grid.getD (1 : Int).toNat [])[2]? =
      some (Cell.int ((stringPayload [0, 65, 66, 67]).getD
        (2 - (1 : Int).toNat) 0)) ∧
    ((MSPDPCanvas.init 3 2).write_string 1 1 [0, 65, 66, 67]).grid[0]? =
      (MSPDPCanvas.init 3 2).grid[0]? ∧
    ((MSPDPCanvas.init 3 2).write_string 1 1 [0, 65, 66, 67]).grid.length =
      (MSPDPCanvas.init 3 2).rows ∧
    (((MSPDPCanvas.init 3 2).write_string 1 1
        [0, 65, 66, 67]).grid.getD (1 : Int).toNat []).length =
      (MSPDPCanvas.init 3 2).cols :=
  have h := write_string_right_edge (MSPDPCanvas.init 3 2) 1 1 [0, 65, 66, 67]
    (by decide) (by decide) (by decide) (by decide)
  ⟨h.1 2 (by decide) (by decide), h.2.1 0 (by decide), h.2.2.1, h.2.2.2⟩

/-- C6: `clear()` followed by `draw()` leaves every cell blank, the dirty
flag set, and the frame counter incremented by one. -/
theorem clear_draw_blank_dirty_frame (c : MSPDPCanvas) :
    (∀ rowL ∈ c.clear.draw.grid, ∀ cell ∈ rowL, cell = Cell.blank) ∧
    c.clear.draw.dirty = true ∧
    c.clear.draw.frame = c.frame + 1 := by
  refine ⟨?_, rfl, rfl⟩
  intro rowL hrow cell hcell
  have hrow2 : rowL = List.replicate c.cols Cell.blank :=
    List.eq_of_mem_replicate hrow
  rw [hrow2] at hcell
  exact List.eq_of_mem_replicate hcell

/-! ## Renderer text fallback and dispatch loop (`src/msp_dp_render_png.py`) -/

/-- `OSDRenderer._value_to_text`: an integer cell value in the printable
ASCII range 32–126 maps to that character, any other integer to a blank
`" "`. The only string the canvas ever stores is the blank `" "` placed by
`clear()` (modelled as `Cell.blank`), for which the Python string branch
(`value[0]` printable) also returns `" "`. -/
def _value_to_text : Cell → String
  | Cell.int v => if 32 ≤ v ∧ v ≤ 126 then String.mk [Char.ofNat v] else " "
  | Cell.blank => " "

/-- The text-fallback path of `OSDRenderer.render` draws a glyph for a cell
exactly when `_value_to_text` is not the blank string
(`if text == " ": continue`). -/
def rendersMark (cell : Cell) : Bool := _value_to_text cell != " "

/-- C8: in the text fallback, an integer cell in 32–126 renders as the
corresponding ASCII character; any integer outside that range renders as a
blank — no mark is drawn, never a placeholder glyph. -/
theorem value_to_text_ascii (v : Nat) :
    (32 ≤ v ∧ v ≤ 126 →
      _value_to_text (Cell.int v) = String.mk [Char.ofNat v]) ∧
    (v < 32 ∨ 126 < v →
      _value_to_text (Cell.int v) = " " ∧
      rendersMark (Cell.int v) = false) := by
  constructor
  · intro h
    simp only [_value_to_text]
    rw [if_pos h]
  · intro h
    have hneg : ¬ (32 ≤ v ∧ v ≤ 126) := by omega
    have htext : _value_to_text (Cell.int v) = " " := by
      simp only [_value_to_text]
      rw [if_neg hneg]
    refine ⟨htext, ?_⟩
    unfold rendersMark
    rw [htext]
    decide

/-- C8 witness: byte 65 renders as `"A"`; byte 7 (a control byte) renders
as blank with no mark drawn. -/
theorem value_to_text_ascii_witness :
    _value_to_text (Cell.int 65) = String.mk [Char.ofNat 65] ∧
    (_value_to_text (Cell.int 7) = " " ∧ rendersMark (Cell.int 7) = false) :=
  ⟨(value_to_text_ascii 65).1 (by decide), (value_to_text_ascii 7).2
    (by decide)⟩

/-- MSP_DISPLAYPORT command code. -/
def MSP_DISPLAYPORT : Nat := 0xB6

/-- DisplayPort subcommand codes from `src/displayport.py`. -/
def DP_HEARTBEAT : Nat := 0x00

/-- `DP_RELEASE = 0x01`. -/
def DP_RELEASE : Nat := 0x01

/-- `DP_CLEAR_SCREEN = 0x02`. -/
def DP_CLEAR_SCREEN : Nat := 0x02

/-- `DP_WRITE_STRING = 0x03`. -/
def DP_WRITE_STRING : Nat := 0x03

/-- `DP_DRAW_SCREEN = 0x04`. -/
def DP_DRAW_SCREEN : Nat := 0x04

/-- `min_frame_dt = 1.0 / max(1.0, fps)` from `run` in
`src/msp_dp_render_png.py`. -/
def min_frame_dt (fps : ℚ) : ℚ := 1 / max 1 fps

/-- The mutable state of the `run` loop: the canvas and the timestamp of
the last committed render (`last_write_ts`, initially `0.0`). -/
structure LoopState where
  canvas : MSPDPCanvas
  last_write_ts : ℚ
deriving DecidableEq

/-- One iteration of the `run` loop body in `src/msp_dp_render_png.py` for
a received datagram `data` arriving at wall-clock time `now`: parse,
validate (checksum, command, non-empty payload), dispatch the DisplayPort
subcommand, and on draw-screen apply the render-throttle gate. The boolean
reports whether an image was committed (`renderer.render` was called). -/
def handleDatagram (minDt : ℚ) (st : LoopState) (data : List Nat)
    (now : ℚ) : LoopState × Bool :=
  match parse_msp_v1 data with
  | none => (st, false)
  | some frame =>
    if ¬ frame.csum_ok ∨ frame.cmd ≠ MSP_DISPLAYPORT ∨ frame.payload = [] then
      (st, false)
    else
      let sub := frame.payload.getD 0 0
      if sub = DP_HEARTBEAT then (st, false)
      else if sub = DP_RELEASE ∨ sub = DP_CLEAR_SCREEN then
        (⟨st.canvas.clear, st.last_write_ts⟩, false)
      else if sub = DP_WRITE_STRING ∧ 4 ≤ frame.payload.length then
        let row := frame.payload.getD 1 0
        let col := frame.payload.getD 2 0
        let rest := frame.payload.drop 3
        (⟨st.canvas.write_string row col rest, st.last_write_ts⟩, false)
      else if sub = DP_DRAW_SCREEN then
        let c := st.canvas.draw
        if c.dirty = true ∧ minDt ≤ now - st.last_write_ts then
          (⟨{ c with dirty := false }, now⟩, true)
        else (⟨c, st.last_write_ts⟩, false)
      else (st, false)

/-- A valid checksum-ok draw-screen frame: `$M>`, length 1, command 0xB6,
payload `[DP_DRAW_SCREEN]`, checksum `1 ^ 0xB6 ^ 4 = 0xB3`. -/
def drawScreenFrame : List Nat := [0x24, 0x4D, 0x3E, 0x01, 0xB6, 0x04, 0xB3]

lemma handleDatagram_draw (minDt : ℚ) (st : LoopState) (now : ℚ) :
    handleDatagram minDt st drawScreenFrame now =
      if minDt ≤ now - st.last_write_ts
      then (⟨{ st.canvas.draw with dirty := false }, now⟩, true)
      else (⟨st.canvas.draw, st.last_write_ts⟩, false) := by
  have hparse : parse_msp_v1 drawScreenFrame =
      some ⟨[0x24, 0x4D, 0x3E], 0xB6, [4], true⟩ := by decide
  unfold handleDatagram
  rw [hparse]
  simp only [MSP_DISPLAYPORT, DP_HEARTBEAT, DP_RELEASE, DP_CLEAR_SCREEN,
    DP_WRITE_STRING, DP_DRAW_SCREEN, MSPDPCanvas.draw]
  norm_num

/-- C7: with `fps = 10` the gate commits a draw-screen at time `t` (given
at least the minimum interval since the last render), clearing the dirty
flag and recording `t`; a second draw-screen 50 ms later is dropped, while
one 150 ms later is committed. -/
theorem render_throttle_fps10 (st : LoopState) (t : ℚ)
    (hgap : min_frame_dt 10 ≤ t - st.last_write_ts) :
    (handleDatagram (min_frame_dt 10) st drawScreenFrame t).2 = true ∧
    (handleDatagram (min_frame_dt 10) st
      drawScreenFrame t).1.canvas.dirty = false ∧
    (handleDatagram (min_frame_dt 10) st
      drawScreenFrame t).1.last_write_ts = t ∧
    (handleDatagram (min_frame_dt 10)
      (handleDatagram (min_frame_dt 10) st drawScreenFrame t).1
      drawScreenFrame (t + 1/20)).2 = false ∧
    (handleDatagram (min_frame_dt 10)
      (handleDatagram (min_frame_dt 10) st drawScreenFrame t).1
      drawScreenFrame (t + 3/20)).2 = true := by
  have hdt : min_frame_dt 10 = 1/10 := by
    unfold min_frame_dt
    norm_num
  have h1 : handleDatagram (min_frame_dt 10) st drawScreenFrame t =
      (⟨{ st.canvas.draw with dirty := false }, t⟩, true) := by
    rw [handleDatagram_draw, if_pos hgap]
  refine ⟨by rw [h1], by rw [h1], by rw [h1], ?_, ?_⟩
  · rw [h1, handleDatagram_draw, if_neg]
    rw [hdt]
    intro hc
    simp only at hc
    have : t + 1/20 - t = 1/20 := by ring
    rw [this] at hc
    norm_num at hc
  · rw [h1, handleDatagram_draw, if_pos]
    rw [hdt]
    simp only
    have : t + 3/20 - t = 3/20 := by ring
    rw [this]
    norm_num

/-- C7 witness: from a fresh loop state, a draw-screen at t = 1 s commits;
a second one at t = 1.05 s is dropped and one at t = 1.15 s commits. -/
theorem render_throttle_fps10_witness :
    (handleDatagram (min_frame_dt 10) ⟨MSPDPCanvas.init 60 22, 0⟩
      drawScreenFrame 1).2 = true ∧
    (handleDatagram (min_frame_dt 10) ⟨MSPDPCanvas.init 60 22, 0⟩
      drawScreenFrame 1).1.canvas.dirty = false ∧
    (handleDatagram (min_frame_dt 10) ⟨MSPDPCanvas.init 60 22, 0⟩
      drawScreenFrame 1).1.last_write_ts = 1 ∧
    (handleDatagram (min_frame_dt 10)
      (handleDatagram (min_frame_dt 10) ⟨MSPDPCanvas.init 60 22, 0⟩
        drawScreenFrame 1).1
      drawScreenFrame (1 + 1/20)).2 = false ∧
    (handleDatagram (min_frame_dt 10)
      (handleDatagram (min_frame_dt 10) ⟨MSPDPCanvas.init 60 22, 0⟩
        drawScreenFrame 1).1
      drawScreenFrame (1 + 3/20)).2 = true :=
  render_throttle_fps10 ⟨MSPDPCanvas.init 60 22, 0⟩ 1
    (by unfold min_frame_dt; norm_num)

/-- C9 write-string frame: `$M>`, length 6, command 0xB6, payload
`[DP_WRITE_STRING, row 5, col 2, attribute 0, 'A', NUL]`, checksum 0xF5. -/
def writeStringFrame : List Nat :=
  [0x24, 0x4D, 0x3E, 0x06, 0xB6, 0x03, 0x05, 0x02, 0x00, 0x41, 0x00, 0xF5]

/-- C9: feeding the dispatch loop the write-string frame (row 5, col 2,
'A', NUL terminator) and then a draw-screen frame puts `'A'` (byte 0x41) at
cell (5,2), leaves every other cell of row 5 blank, and that cell value
draws a non-blank mark in the text fallback. -/
theorem end_to_end_write_then_draw :
    (((handleDatagram (min_frame_dt 20)
        (handleDatagram (min_frame_dt 20) ⟨MSPDPCanvas.init 60 22, 0⟩
          writeStringFrame 1).1
        drawScreenFrame 2).1.canvas.grid.getD 5 [])[2]? =
      some (Cell.int 0x41)) ∧
    (∀ j, j < 60 → j ≠ 2 →
      (((handleDatagram (min_frame_dt 20)
        (handleDatagram (min_frame_dt 20) ⟨MSPDPCanvas.init 60 22, 0⟩
          writeStringFrame 1).1
        drawScreenFrame 2).1.canvas.grid.getD 5 [])[j]? =
      some Cell.blank)) ∧
    rendersMark (Cell.int 0x41) = true := by
  have hparse : parse_msp_v1 writeStringFrame =
      some ⟨[0x24, 0x4D, 0x3E], 0xB6, [3, 5, 2, 0, 0x41, 0], true⟩ := by
    decide
  have hws : handleDatagram (min_frame_dt 20) ⟨MSPDPCanvas.init 60 22, 0⟩
      writeStringFrame 1 =
      (⟨(MSPDPCanvas.init 60 22).write_string 5 2 [0, 0x41, 0], 0⟩, false) := by
    unfold handleDatagram
    rw [hparse]
    norm_num [MSP_DISPLAYPORT, DP_HEARTBEAT, DP_RELEASE, DP_CLEAR_SCREEN,
      DP_WRITE_STRING, DP_DRAW_SCREEN]
    intro h
    exact absurd h (by decide)
  have hgate : min_frame_dt 20 ≤ (2 : ℚ) - 0 := by
    unfold min_frame_dt
    norm_num
  rw [hws, handleDatagram_draw, if_pos hgate]
  simp only [MSPDPCanvas.draw]
  refine ⟨by decide, by decide, by decide⟩
